import Mathlib

/-!
Verification of the ArXiv citation bulk-export tool
(`src/arxiv_batch_export.py`) against its specification.

Shallow embedding notes:

* XML lookup results are modelled as `Option (Option String)`:
  `none` means `element.find(...)` returned `None` (element absent),
  `some none` means the element exists but its `.text` is Python `None`,
  `some (some t)` means the element exists with text `t`.
* Python exceptions are modelled by the `PyErr` error type of `Except`.
* Query parameters are modelled as the output of Python's
  `urllib.parse.parse_qs`: an association list from keys to non-empty
  value lists.  (`parse_qs` with default `keep_blank_values=False` drops
  parameters whose value is empty, so an "empty" URL parameter appears
  here as an absent key.)
* Character-level helpers (`strip`, `split`, `upper`, `lower`, percent
  decoding, regular expressions) are modelled at the ASCII level, which
  is exact for the ASCII inputs the claims are about.
-/

namespace ArxivExport

/-- The whitespace set of Python's no-argument `str.strip` / `str.split`
(ASCII part): space, tab, newline, carriage return, vertical tab, form feed. -/
def pyIsSpace (c : Char) : Bool :=
  c == ' ' || c == '\t' || c == '\n' || c == '\r' || c == '\x0b' || c == '\x0c'

/-- Python `str.strip()` on a character list: drop leading and trailing
whitespace. -/
def pyStripL (l : List Char) : List Char :=
  ((l.dropWhile pyIsSpace).reverse.dropWhile pyIsSpace).reverse

/-- Python `str.strip()`. -/
def pyStrip (s : String) : String := String.mk (pyStripL s.data)

/-- Accumulator-based splitter behind `pyWords`: `acc` holds the current
word (reversed). Mirrors Python `str.split()` with no argument (maximal
non-whitespace runs; no empty words). -/
def wordsAux : List Char → List Char → List (List Char)
  | [], acc => if acc.isEmpty then [] else [acc.reverse]
  | c :: rest, acc =>
    if pyIsSpace c then
      if acc.isEmpty then wordsAux rest [] else acc.reverse :: wordsAux rest []
    else wordsAux rest (c :: acc)

/-- Python `str.split()` (no argument): whitespace-delimited words. -/
def pyWords (l : List Char) : List (List Char) := wordsAux l []

/-- Models `' '.join(words)` on character lists. -/
def joinSpL : List (List Char) → List Char
  | [] => []
  | [w] => w
  | w :: ws => w ++ ' ' :: joinSpL ws

/-- Models `' '.join(text.split())`: collapse all whitespace runs to single
spaces and trim the ends. -/
def collapseL (l : List Char) : List Char := joinSpL (pyWords l)

/-- The character class of the regex `[\\{}$]` used on summaries. -/
def isSpecial (c : Char) : Bool :=
  c == '\\' || c == '\x7b' || c == '\x7d' || c == '$'

/-- Summary cleaning from `safe_get_element`:
`re.sub(r'[\\{}$]', '', text)` followed by `' '.join(clean_text.split())`. -/
def normSummaryL (l : List Char) : List Char :=
  collapseL (l.filter (fun c => !isSpecial c))

/-- String-level summary normalization. -/
def normalize_summary (s : String) : String := String.mk (normSummaryL s.data)

/-- Models `needle.isPrefixOf hay` on character lists (Boolean). -/
def isPrefL : List Char → List Char → Bool
  | [], _ => true
  | _ :: _, [] => false
  | a :: as, b :: bs => a == b && isPrefL as bs

/-- Python's substring test `needle in hay` on character lists. -/
def containsSubL (needle hay : List Char) : Bool :=
  match hay with
  | [] => isPrefL needle []
  | _ :: t => isPrefL needle hay || containsSubL needle t

/-- Python's substring test `needle in hay`. -/
def containsSub (needle hay : String) : Bool := containsSubL needle.data hay.data

/-- Python exceptions raised by the modelled code. -/
inductive PyErr where
  /-- Models `AttributeError`, e.g. `None.text` or `None.strip()`. -/
  | attributeError : PyErr
  /-- Models `TypeError`, e.g. `re.sub(pattern, '', None)`. -/
  | typeError : PyErr
  /-- Models `ValueError(msg)`. -/
  | valueError : String → PyErr
  /-- A plain `Exception(msg)` (used for the upstream-error convention). -/
  | exception : String → PyErr
  deriving DecidableEq, Repr

/-- Models `safe_get_element(element, xpath, default='')`.

The lookup result `found` is the modelled value of `element.find(xpath, NS)`
(see the module docstring).  Faithful to the source, including the slip in
the summary branch: there `re.sub(r'[\\{}$]', '', text)` runs *before* the
`if text is not None` guard of the return expression, so `text = None`
raises an uncaught `TypeError` (only `AttributeError` is caught). -/
def safe_get_element (xpath : String) (found : Option (Option String)) :
    Except PyErr String :=
  if containsSub "atom:summary" xpath then
    match found with
    | none => .ok ""              -- None.text raises AttributeError, caught
    | some none => .error .typeError -- re.sub on None raises TypeError, NOT caught
    | some (some t) => .ok (normalize_summary t)
  else
    match found with
    | some (some t) => .ok (pyStrip t)
    | _ => .ok ""                 -- AttributeError from .text or .strip, caught

/-- The value `safe_get_element` produces on the non-summary path. -/
def plainGet (found : Option (Option String)) : String :=
  match found with
  | some (some t) => pyStrip t
  | _ => ""

/-- Python `str.upper()` (ASCII). -/
def pyUpper (s : String) : String := String.mk (s.data.map Char.toUpper)

/-- Python `str.lower()` (ASCII). -/
def pyLower (s : String) : String := String.mk (s.data.map Char.toLower)

/-- Value of an ASCII hex digit, as used by percent decoding. -/
def hexDigitVal (c : Char) : Option Nat :=
  let n := c.toNat
  if 48 ≤ n && n ≤ 57 then some (n - 48)
  else if 97 ≤ n && n ≤ 102 then some (n - 87)
  else if 65 ≤ n && n ≤ 70 then some (n - 55)
  else none

/-- Models `urllib.parse.unquote` at the code-point level: decode `%XX` hex escapes,
leave invalid escapes and `+` untouched.  (Exact for ASCII escape sequences;
multi-byte UTF-8 escapes are out of scope of the claims.) -/
def pyUnquoteL : List Char → List Char
  | '%' :: a :: b :: rest =>
    match hexDigitVal a, hexDigitVal b with
    | some ha, some hb => Char.ofNat (16 * ha + hb) :: pyUnquoteL rest
    | _, _ => '%' :: pyUnquoteL (a :: b :: rest)
  | c :: rest => c :: pyUnquoteL rest
  | [] => []

/-- Models `urllib.parse.unquote`. -/
def pyUnquote (s : String) : String := String.mk (pyUnquoteL s.data)

/-- Models `term.replace('+', ' ')`. -/
def plusToSpace (s : String) : String :=
  String.mk (s.data.map (fun c => if c == '+' then ' ' else c))

/-- Models `API_FIELD_MAP.get(field, 'all')`: the fixed web-field → API-field map
with default `"all"`. -/
def API_FIELD_MAP (k : String) : String :=
  if k = "title" then "ti"
  else if k = "author" then "au"
  else if k = "abstract" then "abs"
  else if k = "comments" then "comm"
  else if k = "journal_ref" then "jr"
  else if k = "acm_class" then "acm"
  else if k = "msc_class" then "msc"
  else if k = "report_num" then "rpt"
  else if k = "paper_id" then "id"
  else if k = "doi" then "doi"
  else if k = "orcid" then "orcid"
  else if k = "all" then "all"
  else "all"

/-!  Identifier extraction: `re.search(r'(\d{4}\.\d{5}v\d+|\d{4}\.\d{5})', url)`. -/

/-- Try the pattern `\d{4}\.\d{5}v\d+|\d{4}\.\d{5}` anchored at the head of
the list; the first alternative is preferred and its `\d+` is greedy. -/
def matchIdAt (l : List Char) : Option (List Char) :=
  let p1 := l.take 4
  let r1 := l.drop 4
  if p1.length = 4 ∧ p1.all Char.isDigit ∧ r1.head? = some '.' then
    let p2 := r1.tail.take 5
    let r3 := r1.tail.drop 5
    if p2.length = 5 ∧ p2.all Char.isDigit then
      if r3.head? = some 'v' then
        let ds := r3.tail.takeWhile Char.isDigit
        if ds.isEmpty then some (p1 ++ '.' :: p2)
        else some (p1 ++ '.' :: (p2 ++ 'v' :: ds))
      else some (p1 ++ '.' :: p2)
    else none
  else none

/-- Models `re.search`: leftmost match of the identifier pattern (scan start
positions left to right; at each, try the pattern). -/
def reSearchId : List Char → Option (List Char)
  | [] => none
  | c :: t =>
    match matchIdAt (c :: t) with
    | some m => some m
    | none => reSearchId t

/-- Models `arxiv_id`: the matched text, or the sentinel `'unknown'`. -/
def arxivIdOf (u : String) : String :=
  match reSearchId u.data with
  | some m => String.mk m
  | none => "unknown"

/-- Models `arxiv_url = f"https://arxiv.org/abs/{arxiv_id}"`. -/
def arxivUrlOf (u : String) : String := "https://arxiv.org/abs/" ++ arxivIdOf u

/-!  `datetime.strptime(published, '%Y-%m-%dT%H:%M:%SZ')`. -/

/-- A parsed `datetime` value (only the fields the program uses). -/
structure PyDateTime where
  year : Nat
  month : Nat
  day : Nat
  hour : Nat
  minute : Nat
  second : Nat
  deriving DecidableEq, Repr

/-- Numeric value of a digit run. -/
def digitsVal (l : List Char) : Nat := l.foldl (fun a c => 10 * a + (c.toNat - 48)) 0

/-- Split a leading run of ASCII digits. -/
def grabDigits (l : List Char) : List Char × List Char :=
  (l.takeWhile Char.isDigit, l.dropWhile Char.isDigit)

/-- Require a literal character. -/
def expectChar (c : Char) : List Char → Option (List Char)
  | [] => none
  | x :: r => if x == c then some r else none

/-- Decompose `YYYY-MM-DDTHH:MM:SSZ` into its six digit runs, requiring the
literal separators and the end of the string.  (Every field of the format is
a digit pattern and every separator is a non-digit, so `strptime`'s regex
must consume each maximal digit run exactly.) -/
def parseShape (l : List Char) :
    Option (List Char × List Char × List Char × List Char × List Char × List Char) :=
  let (ys, r0) := grabDigits l
  match expectChar '-' r0 with
  | none => none
  | some r1 =>
    let (ms, r2) := grabDigits r1
    match expectChar '-' r2 with
    | none => none
    | some r3 =>
      let (ds, r4) := grabDigits r3
      match expectChar 'T' r4 with
      | none => none
      | some r5 =>
        let (hs, r6) := grabDigits r5
        match expectChar ':' r6 with
        | none => none
        | some r7 =>
          let (ns, r8) := grabDigits r7
          match expectChar ':' r8 with
          | none => none
          | some r9 =>
            let (ss, r10) := grabDigits r9
            match expectChar 'Z' r10 with
            | none => none
            | some r11 => if r11.isEmpty then some (ys, ms, ds, hs, ns, ss) else none

/-- Gregorian leap-year test (as in Python's `datetime`). -/
def isLeap (y : Nat) : Bool := (y % 4 == 0 && y % 100 != 0) || y % 400 == 0

/-- Days in a month, with the leap-year rule of Python's `datetime`. -/
def daysInMonth (y m : Nat) : Nat :=
  match m with
  | 1 => 31 | 2 => if isLeap y then 29 else 28 | 3 => 31 | 4 => 30
  | 5 => 31 | 6 => 30 | 7 => 31 | 8 => 31 | 9 => 30 | 10 => 31
  | 11 => 30 | 12 => 31 | _ => 0

/-- Models `datetime.strptime(s, '%Y-%m-%dT%H:%M:%SZ')`, returning `none` where
Python raises `ValueError`.  The field conditions transcribe `_strptime`'s
regex fragments (`%Y` exactly four digits; `%m`, `%d`, `%H`, `%M`, `%S` one
or two digits within range, zero-padding optional) and the `datetime`
constructor checks (`MINYEAR = 1`, day within the month). -/
def strptimePub (s : String) : Option PyDateTime :=
  match parseShape s.data with
  | none => none
  | some (ys, ms, ds, hs, ns, ss) =>
    let y := digitsVal ys
    let m := digitsVal ms
    let d := digitsVal ds
    let h := digitsVal hs
    let mi := digitsVal ns
    let sec := digitsVal ss
    if ys.length = 4 ∧
       1 ≤ ms.length ∧ ms.length ≤ 2 ∧ 1 ≤ m ∧ m ≤ 12 ∧
       1 ≤ ds.length ∧ ds.length ≤ 2 ∧ 1 ≤ d ∧ d ≤ 31 ∧
       1 ≤ hs.length ∧ hs.length ≤ 2 ∧ h ≤ 23 ∧
       1 ≤ ns.length ∧ ns.length ≤ 2 ∧ mi ≤ 59 ∧
       1 ≤ ss.length ∧ ss.length ≤ 2 ∧ sec ≤ 59 ∧
       1 ≤ y ∧ d ≤ daysInMonth y m then
      some ⟨y, m, d, h, mi, sec⟩
    else none

/-- Models `strftime` zero-padded two-digit field (`%m`, `%d`). -/
def pad2 (n : Nat) : String := if n < 10 then "0" ++ Nat.repr n else Nat.repr n

/-- Models `strftime` `%Y` (documented as zero-padded to four digits). -/
def pad4 (n : Nat) : String :=
  if n < 10 then "000" ++ Nat.repr n
  else if n < 100 then "00" ++ Nat.repr n
  else if n < 1000 then "0" ++ Nat.repr n
  else Nat.repr n

/-- Models `strftime` `%B`: the full month name. -/
def monthName (m : Nat) : String :=
  match m with
  | 1 => "January" | 2 => "February" | 3 => "March" | 4 => "April"
  | 5 => "May" | 6 => "June" | 7 => "July" | 8 => "August"
  | 9 => "September" | 10 => "October" | 11 => "November" | 12 => "December"
  | _ => ""

/-- The four date-derived fields of `extract_paper_data`, in source order:
`(year, submission_date, ris_date, enw_date_8)`.  Mirrors the
`if published_date_str:` guard and the `try/except ValueError: pass` block:
on absence or parse failure all four stay `''`. -/
def dateQuad (published : String) : String × String × String × String :=
  if published ≠ "" then
    match strptimePub published with
    | some dt =>
      (Nat.repr dt.year,
       pad4 dt.year ++ "/" ++ pad2 dt.month ++ "/" ++ pad2 dt.day ++ "/",
       pad4 dt.year ++ "/" ++ pad2 dt.month ++ "/01/",
       monthName dt.month ++ " " ++ pad2 dt.day ++ ", " ++ pad4 dt.year)
    | none => ("", "", "", "")
  else ("", "", "", "")

/-!  The data model: one XML `<entry>` and the extracted record. -/

/-- One `<entry>` node of the response feed, reduced to the lookups the
program performs on it (see the module docstring for the
`Option (Option String)` encoding).  `primaryCat` is the
`arxiv:primary_category` element together with its `term` attribute
(`some none` = element present, attribute absent). -/
structure Entry where
  title : Option (Option String)
  idUrl : Option (Option String)
  summary : Option (Option String)
  published : Option (Option String)
  doi : Option (Option String)
  authors : List (Option (Option String))
  primaryCat : Option (Option String)
  deriving DecidableEq, Repr

/-- The dict returned by `extract_paper_data`.  `primary_category` is a
Python value that can be either a string or `None` (when the element exists
but the `term` attribute is absent), hence `Option String`. -/
structure PaperData where
  title : String
  summary : String
  doi : String
  arxiv_id : String
  arxiv_url : String
  authors : List String
  year : String
  submission_date : String
  ris_date : String
  primary_category : Option String
  enw_date_8 : String
  deriving DecidableEq, Repr

/-- Python truthiness of the `primary_category` value. -/
def pyTruthyOpt (x : Option String) : Bool :=
  match x with
  | none => false
  | some s => s ≠ ""

/-- Python `str(x)` of a string-or-None value, as an f-string renders it. -/
def pyStr (x : Option String) : String :=
  match x with
  | none => "None"
  | some s => s

/-- The author list comprehension
`[author.find('atom:name', NS).text.strip() for author in entry.findall('atom:author', NS)]`:
a missing name element or a name with no text raises an uncaught
`AttributeError` (fatal for the record). -/
def getAuthors : List (Option (Option String)) → Except PyErr (List String)
  | [] => .ok []
  | a :: rest =>
    match a with
    | some (some t) =>
      match getAuthors rest with
      | .ok l => .ok (pyStrip t :: l)
      | .error err => .error err
    | _ => .error .attributeError

/-- Models `extract_paper_data(entry)`: the five tolerant field lookups in source
order, identifier extraction, authors, primary category, and the date
fields.  Any uncaught exception aborts the record. -/
def extract_paper_data (e : Entry) : Except PyErr PaperData :=
  match safe_get_element "atom:title" e.title with
  | .error err => .error err
  | .ok title =>
  match safe_get_element "atom:id" e.idUrl with
  | .error err => .error err
  | .ok arxiv_id_url =>
  match safe_get_element "atom:summary" e.summary with
  | .error err => .error err
  | .ok summary =>
  match safe_get_element "atom:published" e.published with
  | .error err => .error err
  | .ok published =>
  match safe_get_element "arxiv:doi" e.doi with
  | .error err => .error err
  | .ok doi =>
  match getAuthors e.authors with
  | .error err => .error err
  | .ok authors =>
    let arxiv_id := arxivIdOf arxiv_id_url
    let primary_category : Option String :=
      match e.primaryCat with
      | none => some ""          -- element absent: '' (the Python default)
      | some attr => attr        -- element present: its `term` attribute or None
    let q := dateQuad published
    .ok { title := title, summary := summary, doi := doi,
          arxiv_id := arxiv_id,
          arxiv_url := "https://arxiv.org/abs/" ++ arxiv_id,
          authors := authors,
          year := q.1, submission_date := q.2.1, ris_date := q.2.2.1,
          primary_category := primary_category, enw_date_8 := q.2.2.2 }

/-!  Joiners: Python `sep.join(pieces)` for the separators the program uses. -/

/-- Models `' '.join(pieces)`. -/
def joinSp : List String → String
  | [] => ""
  | [x] => x
  | x :: xs => x ++ " " ++ joinSp xs

/-- Models `'\n'.join(lines)`. -/
def joinNL : List String → String
  | [] => ""
  | [x] => x
  | x :: xs => x ++ "\n" ++ joinNL xs

/-- Models `'\n\n'.join(blocks)`: the record separator of `parse_arxiv_xml`. -/
def joinNN : List String → String
  | [] => ""
  | [x] => x
  | x :: xs => x ++ "\n\n" ++ joinNN xs

/-- Models `' and '.join(pieces)`. -/
def joinAnd : List String → String
  | [] => ""
  | [x] => x
  | x :: xs => x ++ " and " ++ joinAnd xs

/-- Models `format_authors_for_bibtex`: best-effort `"Last, First and ..."`. -/
def format_authors_for_bibtex (authors_list : List String) : String :=
  if authors_list.isEmpty then ""
  else
    joinAnd (authors_list.map (fun author_name =>
      let name_parts := (pyWords author_name.data).map String.mk
      if name_parts.length > 1 then
        name_parts.getLastD "" ++ ", " ++ joinSp name_parts.dropLast
      else author_name))

/-- Models `\w` of Python's `re` (ASCII part). -/
def wordChar (c : Char) : Bool := c.isAlpha || c.isDigit || c == '_'

/-- Models `[a-zA-Z0-9]`. -/
def alnumChar (c : Char) : Bool := c.isAlpha || c.isDigit

/-- Models `re.findall(r'\b[a-zA-Z0-9]+\b', title)` (ASCII): maximal alphanumeric
runs whose neighbours are not word characters (an adjacent `_` defeats the
`\b` boundary).  `leftOk` records whether the character before the current
run is a non-word character (or the start of the string); `acc` is the
current run, reversed. -/
def findWordsAux (leftOk : Bool) (acc : List Char) : List Char → List (List Char)
  | [] => if !acc.isEmpty && leftOk then [acc.reverse] else []
  | c :: rest =>
    if alnumChar c then findWordsAux leftOk (c :: acc) rest
    else
      (if !acc.isEmpty && leftOk && !wordChar c then [acc.reverse] else []) ++
      findWordsAux (!wordChar c) [] rest

/-- Models `re.findall(r'\b[a-zA-Z0-9]+\b', title)`. -/
def findAlnumWords (l : List Char) : List (List Char) := findWordsAux true [] l

/-- Concatenation `"".join(pieces)`. -/
def strConcat (ls : List String) : String := ls.foldl (fun a b => a ++ b) ""

/-- Models `generate_bibtex_key(title, year)`. -/
def generate_bibtex_key (title year : String) : String :=
  let words := findAlnumWords title.data
  let key_parts := if words.isEmpty then ["arxiv"] else (words.take 2).map String.mk
  (pyLower (strConcat key_parts) ++ year).take 25

/-- Models `summary.replace('{', '\\{').replace('}', '\\}')`. -/
def escapeBracesBibtex (s : String) : String :=
  String.mk (s.data.flatMap (fun c =>
    if c == '\x7b' then ['\\', '\x7b']
    else if c == '\x7d' then ['\\', '\x7d']
    else [c]))

/-- Models `format_to_bibtex(data)`, including the f-string shapes (note the body
ends with a newline and the entry closes with `"\n}"`, leaving a blank line
before the closing brace) and the final `.strip()`. -/
def format_to_bibtex (data : PaperData) : String :=
  let bibkey := generate_bibtex_key data.title data.year
  let bibtex_authors := format_authors_for_bibtex data.authors
  let summary := escapeBracesBibtex data.summary
  let body0 :=
    "\ntitle = \x7b\x7b" ++ data.title ++ "\x7d\x7d,\nauthor = \x7b" ++
    bibtex_authors ++ "\x7d,\njournal = \x7barXiv\x7d,\narchivePrefix = \x7barXiv\x7d,\neprint = \x7b" ++
    data.arxiv_id ++ "\x7d,"
  let body1 :=
    if pyTruthyOpt data.primary_category then
      body0 ++ "\n  primaryClass = \x7b" ++ pyStr data.primary_category ++ "\x7d,"
    else body0
  let body2 :=
    if data.doi ≠ "" then body1 ++ "\n  doi = \x7b" ++ data.doi ++ "\x7d,"
    else body1
  let body :=
    body2 ++ "\nyear = \x7b" ++ data.year ++ "\x7d,\nabstract = \x7b\x7b" ++
    summary ++ "\x7d\x7d\n"
  pyStrip ("\n@article\x7b" ++ bibkey ++ "," ++ body ++ "\n\x7d\n")

/-- The RIS lines of `format_to_ris`, in source order. -/
def ris_lines (data : PaperData) : List String :=
  ["TY  - JOUR", "T1  - " ++ data.title]
  ++ data.authors.map (fun a => "AU  - " ++ a)
  ++ ["AB  - " ++ data.summary]
  ++ (if data.year ≠ "" then ["PY  - " ++ data.year] else [])
  ++ (if data.submission_date ≠ "" then ["DA  - " ++ data.submission_date] else [])
  ++ (if data.doi ≠ "" then ["DO  - " ++ data.doi] else [])
  ++ ["UR  - " ++ data.arxiv_url, "JO  - arXiv", "PB  - arXiv"]
  ++ (if pyTruthyOpt data.primary_category then ["KW  - " ++ pyStr data.primary_category] else [])
  ++ ["EP  - " ++ data.arxiv_id, "ER  - "]

/-- Models `format_to_ris(data) = '\n'.join(ris_entry)`. -/
def format_to_ris (data : PaperData) : String := joinNL (ris_lines data)

/-- The EndNote-tagged lines of `format_to_enw`, in source order. -/
def enw_lines (data : PaperData) : List String :=
  ["%0 Journal Article", "%T " ++ data.title]
  ++ data.authors.map (fun a => "%A " ++ a)
  ++ (if data.year ≠ "" then ["%Y " ++ data.year] else [])
  ++ (if data.enw_date_8 ≠ "" then ["%8 " ++ data.enw_date_8] else [])
  ++ ["%J arXiv", "%K arXiv; " ++ pyStr data.primary_category]
  ++ (if data.doi ≠ "" then ["%R " ++ data.doi] else [])
  ++ ["%Z arXiv:" ++ data.arxiv_id, "%U " ++ data.arxiv_url, "%X " ++ data.summary]

/-- Models `format_to_enw(data) = '\n'.join(enw_entry)`. -/
def format_to_enw (data : PaperData) : String := joinNL (enw_lines data)

/-!  `parse_arxiv_xml`: error convention, extraction loop, joining. -/

/-- Models `root.find('atom:entry/atom:title', NS)`: the title element of the first
entry that has one, in document order. -/
def firstEntryTitle (doc : List Entry) : Option (Option String) :=
  (doc.filterMap Entry.title).head?

/-- The extraction/formatting loop of `parse_arxiv_xml`: extract each entry
(uncaught exceptions propagate) and format it. -/
def renderEntries (formatter : PaperData → String) : List Entry → Except PyErr (List String)
  | [] => .ok []
  | e :: rest =>
    match extract_paper_data e with
    | .error err => .error err
    | .ok d =>
      match renderEntries formatter rest with
      | .error err => .error err
      | .ok l => .ok (formatter d :: l)

/-- Models `parse_arxiv_xml(xml_content, formatter)` on an already-parsed document
(a list of entries): the upstream-error check (`"Error" in error_tag.text`
raises `TypeError` when the text is `None`), then the loop, then
`'\n\n'.join`. -/
def parse_arxiv_xml (doc : List Entry) (formatter : PaperData → String) :
    Except PyErr String :=
  let proceed : Except PyErr String :=
    match renderEntries formatter doc with
    | .error err => .error err
    | .ok ls => .ok (joinNN ls)
  match firstEntryTitle doc with
  | some none => .error .typeError
  | some (some t) =>
    if containsSub "Error" t then
      .error (.exception ("API 返回错误：" ++ pyStrip t))
    else proceed
  | none => proceed

/-!  URL query parsing.  Parameters are the output of `parse_qs`. -/

/-- The `parse_qs` dict: keys with their (non-empty) value lists. -/
abbrev QueryParams := List (String × List String)

/-- Models `query_params.get(k)`. -/
def lookupP (params : QueryParams) (k : String) : Option (List String) :=
  (params.find? (fun p => p.1 == k)).map (fun p => p.2)

/-- Models `parse_simple_search_url`: requires truthy `query` and `searchtype`
lists, then `f'{api_field}:({raw_query})'`.  (Python checks
`not query_list or not searchtype_list` and then indexes `[0]`; the match
below is the same case split.) -/
def parse_simple_search_url (params : QueryParams) : Except PyErr String :=
  match (lookupP params "query").getD [], (lookupP params "searchtype").getD [] with
  | q :: _, st :: _ => .ok (API_FIELD_MAP st ++ ":(" ++ pyUnquote q ++ ")")
  | _, _ => .error (.valueError "URL 中未找到 \x27query\x27 或 \x27searchtype\x27 参数。")

/-- Models `f'terms-{i}-term'`. -/
def termKey (i : Nat) : String := "terms-" ++ Nat.repr i ++ "-term"

/-- Models `f'terms-{i}-field'`. -/
def fieldKey (i : Nat) : String := "terms-" ++ Nat.repr i ++ "-field"

/-- Models `f'terms-{i}-operator'`. -/
def operKey (i : Nat) : String := "terms-" ++ Nat.repr i ++ "-operator"

/-- One advanced-mode clause:
`f'({api_field}:({term_clean}))'` with `term = unquote(...).strip()`,
`field = field_value_list[0].strip()`, `term_clean = term.replace('+', ' ')`. -/
def advClause (t f : String) : String :=
  "(" ++ API_FIELD_MAP (pyStrip f) ++ ":(" ++ plusToSpace (pyStrip (pyUnquote t)) ++ "))"

/-- The `ValueError` message for an advanced URL with no valid terms. -/
def noTermsMsg : String := "URL 中未找到有效的 \x27terms-N-term\x27 参数。"

/-- The tail of `parse_advanced_search_url` after the loop:
`' '.join(parts)`, then `ValueError` on an empty result string. -/
def finishAdv (parts : List String) : Except PyErr String :=
  let q := joinSp parts
  if q = "" then .error (.valueError noTermsMsg) else .ok q

/-- The `while True` loop of `parse_advanced_search_url`, with explicit fuel
(`none` = fuel exhausted; the real loop always terminates because a URL has
finitely many parameters).  `i` is the index, `parts` the accumulated
`complex_query_parts`. -/
def advLoop (params : QueryParams) : Nat → Nat → List String → Option (Except PyErr String)
  | 0, _, _ => none
  | fuel + 1, i, parts =>
    match lookupP params (termKey i) with
    | none => some (finishAdv parts)
    | some term_value_list =>
      match term_value_list, lookupP params (fieldKey i) with
      | t :: _, some (f :: _) =>
        let part := advClause t f
        match i, lookupP params (operKey i) with
        | Nat.succ _, some (op :: _) =>
          advLoop params fuel (i + 1) (parts ++ [pyUpper op, part])
        | _, _ => advLoop params fuel (i + 1) (parts ++ [part])
      | _, _ => advLoop params fuel (i + 1) parts

/-- Models `parse_advanced_search_url(url)` on parsed parameters. -/
def parse_advanced_search_url (params : QueryParams) (fuel : Nat) :
    Option (Except PyErr String) :=
  advLoop params fuel 0 []

/-- Transcribed from the specification wording of claim C3 (comparison
definition, not from the source): indices processed strictly in increasing
order from 0, stopping at the first absent `terms-{i}-term`; an index with a
term but no field is skipped by incrementing `i`; each valid triple yields
`"(<fieldcode>:(<term>))"`, with the uppercased operator text inserted
immediately before the clause when `i > 0`; the clauses are collected in
index order. -/
def advSpecClauses (params : QueryParams) : Nat → Nat → Option (List String)
  | 0, _ => none
  | fuel + 1, i =>
    match lookupP params (termKey i) with
    | none => some []
    | some tl =>
      match tl, lookupP params (fieldKey i) with
      | t :: _, some (f :: _) =>
        let clause := advClause t f
        let clause2 :=
          match i, lookupP params (operKey i) with
          | Nat.succ _, some (op :: _) => pyUpper op ++ " " ++ clause
          | _, _ => clause
        (advSpecClauses params fuel (i + 1)).map (fun cs => clause2 :: cs)
      | _, _ => advSpecClauses params fuel (i + 1)

/-- Spec-side advanced-mode query building (comparison definition for C3):
join the clauses with single spaces; fail with `MalformedQuery` when zero
valid clauses were produced. -/
def parse_advanced_spec (params : QueryParams) (fuel : Nat) :
    Option (Except PyErr String) :=
  match advSpecClauses params fuel 0 with
  | none => none
  | some [] => some (.error (.valueError noTermsMsg))
  | some cs => some (.ok (joinSp cs))

instance {ε α : Type} [DecidableEq ε] [DecidableEq α] : DecidableEq (Except ε α) :=
  fun x y =>
    match x, y with
    | .ok a, .ok b =>
      if h : a = b then .isTrue (h ▸ rfl) else .isFalse (fun hh => h (by injection hh))
    | .error a, .error b =>
      if h : a = b then .isTrue (h ▸ rfl) else .isFalse (fun hh => h (by injection hh))
    | .ok _, .error _ => .isFalse (fun hh => Except.noConfusion hh)
    | .error _, .ok _ => .isFalse (fun hh => Except.noConfusion hh)


/-- A concrete entry whose published timestamp parses. -/
def sampleEntry : Entry :=
  { title := some (some "A Title")
    idUrl := some (some "http://arxiv.org/abs/2310.12345v2")
    summary := some (some "A  b")
    published := some (some "2023-10-05T12:34:56Z")
    doi := none
    authors := [some (some " Jane A Doe ")]
    primaryCat := some (some "cs.LG") }

/-- The record `extract_paper_data` produces on `sampleEntry`. -/
def samplePD : PaperData :=
  { title := "A Title"
    summary := "A b"
    doi := ""
    arxiv_id := "2310.12345v2"
    arxiv_url := "https://arxiv.org/abs/2310.12345v2"
    authors := ["Jane A Doe"]
    year := "2023"
    submission_date := "2023/10/05/"
    ris_date := "2023/10/01/"
    primary_category := some "cs.LG"
    enw_date_8 := "October 05, 2023" }

/-- The language of the identifier regex
`\d{4}\.\d{5}v\d+|\d{4}\.\d{5}`: four digits, a dot, five digits,
optionally followed by `v` and a non-empty digit run. -/
def idShape (m : List Char) : Prop :=
  ∃ a b v, m = a ++ '.' :: (b ++ v) ∧ a.length = 4 ∧ b.length = 5 ∧
    (∀ c ∈ a, c.isDigit = true) ∧ (∀ c ∈ b, c.isDigit = true) ∧
    (v = [] ∨ ∃ ds, v = 'v' :: ds ∧ ds ≠ [] ∧ ∀ c ∈ ds, c.isDigit = true)

/-- Number of adjacent newline pairs (`\n\n` occurrences, i.e. blank-line
separators) in a character list. -/
def countNN : List Char → Nat
  | [] => 0
  | [_] => 0
  | c :: d :: rest => (if c = '\n' ∧ d = '\n' then 1 else 0) + countNN (d :: rest)

/-- Number of `\n\n` occurrences in a string. -/
def countNNs (s : String) : Nat := countNN s.data

/-- A string with no newline character at all. -/
def nlFree (s : String) : Bool := s.data.all (fun c => !(c == '\n'))

/-- A rendered block that is non-empty, neither starts nor ends with a
newline, and contains no blank line. -/
def blockGood (b : String) : Prop :=
  b ≠ "" ∧ b.data.head? ≠ some '\n' ∧ b.data.getLast? ≠ some '\n' ∧ countNNs b = 0

instance (b : String) : Decidable (blockGood b) := by
  unfold blockGood
  infer_instance

/-- All fields of a record are newline-free. -/
def nlFreeData (d : PaperData) : Bool :=
  nlFree d.title && nlFree d.summary && nlFree d.doi && nlFree d.arxiv_id &&
  nlFree d.arxiv_url && d.authors.all nlFree && nlFree d.year &&
  nlFree d.submission_date && nlFree d.ris_date &&
  nlFree (pyStr d.primary_category) && nlFree d.enw_date_8

/-- Extraction of all entries in document order, stopping at the first
uncaught exception (comparison definition for the no-error path of C8). -/
def extractAll : List Entry → Except PyErr (List PaperData)
  | [] => .ok []
  | e :: rest =>
    match extract_paper_data e with
    | .error err => .error err
    | .ok d =>
      match extractAll rest with
      | .error err => .error err
      | .ok l => .ok (d :: l)

/-- A document whose first entry title signals an upstream error, with
surrounding whitespace. -/
def errEntry : Entry :=
  { title := some (some "  Error 500  ")
    idUrl := none
    summary := none
    published := none
    doi := none
    authors := []
    primaryCat := none }


theorem safe_get_element_plain (xpath : String)
    (h : containsSub "atom:summary" xpath = false) (x : Option (Option String)) :
    safe_get_element xpath x = .ok (plainGet x) := by
  cases x with
  | none => simp [safe_get_element, h, plainGet]
  | some t => cases t <;> simp [safe_get_element, h, plainGet]


/-!  Lemmas about `pyWords` / `joinSpL`, used for summary-normalization
idempotence (claim C6). -/

theorem wordsAux_nonspace : ∀ (l acc : List Char),
    (∀ c ∈ acc, pyIsSpace c = false) →
    ∀ w ∈ wordsAux l acc, w ≠ [] ∧ ∀ c ∈ w, pyIsSpace c = false := by
  intro l
  induction l with
  | nil =>
    intro acc hacc w hw
    by_cases h : acc.isEmpty
    · simp [wordsAux, h] at hw
    · simp [wordsAux, h] at hw
      subst hw
      refine ⟨by simpa using (List.isEmpty_eq_false.mp (by simpa using h)), ?_⟩
      intro c hc
      exact hacc c (List.mem_reverse.mp hc)
  | cons c0 rest ih =>
    intro acc hacc w hw
    by_cases hsp : pyIsSpace c0
    · by_cases h : acc.isEmpty
      · simp [wordsAux, hsp, h] at hw
        exact ih [] (by simp) w hw
      · simp [wordsAux, hsp, h] at hw
        rcases hw with hw | hw
        · subst hw
          refine ⟨by simpa using (List.isEmpty_eq_false.mp (by simpa using h)), ?_⟩
          intro c hc
          exact hacc c (List.mem_reverse.mp hc)
        · exact ih [] (by simp) w hw
    · simp [wordsAux, hsp] at hw
      refine ih (c0 :: acc) ?_ w hw
      intro c hc
      rcases List.mem_cons.mp hc with h | h
      · subst h; simpa using hsp
      · exact hacc c h

theorem wordsAux_subset : ∀ (l acc : List Char) (w : List Char),
    w ∈ wordsAux l acc → ∀ c ∈ w, c ∈ l ∨ c ∈ acc := by
  intro l
  induction l with
  | nil =>
    intro acc w hw c hc
    by_cases h : acc.isEmpty
    · simp [wordsAux, h] at hw
    · simp [wordsAux, h] at hw
      subst hw
      exact Or.inr (List.mem_reverse.mp hc)
  | cons c0 rest ih =>
    intro acc w hw c hc
    by_cases hsp : pyIsSpace c0
    · by_cases h : acc.isEmpty
      · simp [wordsAux, hsp, h] at hw
        rcases ih [] w hw c hc with h1 | h1
        · exact Or.inl (List.mem_cons_of_mem _ h1)
        · simp at h1
      · simp [wordsAux, hsp, h] at hw
        rcases hw with hw | hw
        · subst hw
          exact Or.inr (List.mem_reverse.mp hc)
        · rcases ih [] w hw c hc with h1 | h1
          · exact Or.inl (List.mem_cons_of_mem _ h1)
          · simp at h1
    · simp [wordsAux, hsp] at hw
      rcases ih (c0 :: acc) w hw c hc with h1 | h1
      · exact Or.inl (List.mem_cons_of_mem _ h1)
      · rcases List.mem_cons.mp h1 with h2 | h2
        · exact Or.inl (by simp [h2])
        · exact Or.inr h2

theorem mem_joinSpL : ∀ (ws : List (List Char)) (c : Char),
    c ∈ joinSpL ws → c = ' ' ∨ ∃ w ∈ ws, c ∈ w := by
  intro ws
  induction ws with
  | nil => intro c hc; simp [joinSpL] at hc
  | cons w tail ih =>
    intro c hc
    cases tail with
    | nil => exact Or.inr ⟨w, by simp, by simpa [joinSpL] using hc⟩
    | cons v ws2 =>
      simp only [joinSpL] at hc
      rcases List.mem_append.mp hc with h | h
      · exact Or.inr ⟨w, by simp, h⟩
      · rcases List.mem_cons.mp h with h1 | h1
        · exact Or.inl h1
        · rcases ih c h1 with h2 | ⟨w2, hw2, hc2⟩
          · exact Or.inl h2
          · exact Or.inr ⟨w2, List.mem_cons_of_mem _ hw2, hc2⟩

theorem wordsAux_chunk : ∀ (w : List Char), (∀ c ∈ w, pyIsSpace c = false) →
    ∀ (rest acc : List Char), wordsAux (w ++ rest) acc = wordsAux rest (w.reverse ++ acc) := by
  intro w
  induction w with
  | nil => intro _ rest acc; simp
  | cons c w' ih =>
    intro hw rest acc
    have hc : pyIsSpace c = false := hw c (by simp)
    simp only [List.cons_append, wordsAux, hc, Bool.false_eq_true, if_false]
    show wordsAux (w' ++ rest) (c :: acc) = wordsAux rest ((c :: w').reverse ++ acc)
    rw [ih (fun c' hc' => hw c' (List.mem_cons_of_mem _ hc')) rest (c :: acc)]
    simp [List.append_assoc]

theorem pyWords_joinSpL : ∀ (ws : List (List Char)),
    (∀ w ∈ ws, w ≠ [] ∧ ∀ c ∈ w, pyIsSpace c = false) →
    pyWords (joinSpL ws) = ws := by
  intro ws
  induction ws with
  | nil => intro _; rfl
  | cons w tail ih =>
    intro hws
    obtain ⟨hwne, hwsp⟩ := hws w (by simp)
    have hrev : w.reverse.isEmpty = false := by
      simp [List.isEmpty_iff, hwne]
    cases tail with
    | nil =>
      show pyWords (joinSpL [w]) = [w]
      unfold pyWords
      rw [show joinSpL [w] = w ++ [] by simp [joinSpL]]
      rw [wordsAux_chunk w hwsp [] []]
      simp [wordsAux, hrev]
    | cons v ws2 =>
      show pyWords (w ++ ' ' :: joinSpL (v :: ws2)) = w :: v :: ws2
      unfold pyWords
      rw [wordsAux_chunk w hwsp (' ' :: joinSpL (v :: ws2)) []]
      have hsp : pyIsSpace ' ' = true := by decide
      simp only [wordsAux, hsp, List.append_nil, hrev, Bool.false_eq_true, if_false, if_true,
        List.reverse_reverse]
      have h2 := ih (fun w2 hw2 => hws w2 (List.mem_cons_of_mem _ hw2))
      unfold pyWords at h2
      rw [h2]

theorem collapseL_idem (l : List Char) : collapseL (collapseL l) = collapseL l := by
  unfold collapseL
  rw [pyWords_joinSpL (pyWords l) (wordsAux_nonspace l [] (by simp))]

/-- Claim C6: summary normalization — removing the literal characters
`\`, `{`, `}`, `$` and then collapsing all whitespace runs (including
newlines) to single spaces — is idempotent: re-normalizing an
already-normalized summary yields the same text. -/
theorem C6_normalize_summary_idempotent (s : String) :
    normalize_summary (normalize_summary s) = normalize_summary s := by
  show String.mk (normSummaryL (normSummaryL s.data)) = String.mk (normSummaryL s.data)
  congr 1
  unfold normSummaryL
  have hfix : (collapseL (s.data.filter fun c => !isSpecial c)).filter
      (fun c => !isSpecial c) = collapseL (s.data.filter fun c => !isSpecial c) := by
    apply List.filter_eq_self.mpr
    intro c hc
    rcases mem_joinSpL _ c hc with h | ⟨w, hw, hcw⟩
    · subst h; decide
    · rcases wordsAux_subset _ [] w hw c hcw with h1 | h1
      · exact (List.mem_filter.mp h1).2
      · simp at h1
  rw [hfix, collapseL_idem]

/-!  Small string facts used by several claims. -/

theorem toDigitsCore_ne_nil (b : Nat) :
    ∀ (fuel n : Nat) (ds : List Char), ds ≠ [] → Nat.toDigitsCore b fuel n ds ≠ [] := by
  intro fuel
  induction fuel with
  | zero => intro n ds h; simpa [Nat.toDigitsCore] using h
  | succ fuel ih =>
    intro n ds h
    simp only [Nat.toDigitsCore]
    split
    · simp
    · exact ih _ _ (by simp)

theorem nat_repr_ne_empty (n : Nat) : Nat.repr n ≠ "" := by
  show (Nat.toDigits 10 n).asString ≠ ""
  have h : Nat.toDigits 10 n ≠ [] := by
    show Nat.toDigitsCore 10 (n + 1) n [] ≠ []
    simp only [Nat.toDigitsCore]
    split
    · simp
    · exact toDigitsCore_ne_nil 10 n (n / 10) _ (by simp)
  intro he
  exact h (congrArg String.data he)

theorem eq_empty_of_length_zero {s : String} (h : s.length = 0) : s = "" := by
  apply String.ext
  exact List.length_eq_zero.mp h

theorem append_ne_empty_right (a b : String) (hb : b ≠ "") : a ++ b ≠ "" := by
  intro h
  have hl := congrArg String.length h
  rw [String.length_append, show ("" : String).length = 0 from rfl] at hl
  exact hb (eq_empty_of_length_zero (by omega))

theorem append_ne_empty_left (a b : String) (ha : a ≠ "") : a ++ b ≠ "" := by
  intro h
  have hl := congrArg String.length h
  rw [String.length_append, show ("" : String).length = 0 from rfl] at hl
  exact ha (eq_empty_of_length_zero (by omega))

theorem pad4_ne_empty (n : Nat) : pad4 n ≠ "" := by
  unfold pad4
  split
  · exact append_ne_empty_left _ _ (by decide)
  · split
    · exact append_ne_empty_left _ _ (by decide)
    · split
      · exact append_ne_empty_left _ _ (by decide)
      · exact nat_repr_ne_empty n

/-!  Facts about the modelled `strptime` and the derived date fields. -/

theorem strptimePub_bounds {s : String} {dt : PyDateTime}
    (h : strptimePub s = some dt) :
    1 ≤ dt.year ∧ 1 ≤ dt.month ∧ dt.month ≤ 12 ∧ 1 ≤ dt.day ∧ dt.day ≤ 31 := by
  unfold strptimePub at h
  cases hp : parseShape s.data with
  | none => rw [hp] at h; cases h
  | some t =>
    rw [hp] at h
    obtain ⟨ys, ms, ds, hs, ns, ss⟩ := t
    simp only at h
    split at h
    · rename_i hcond
      obtain ⟨h1, h2, h3, h4, h5, h6, h7, h8, h9, h10, h11, h12, h13, h14, h15,
        h16, h17, h18, h19, h20⟩ := hcond
      cases h
      exact ⟨h19, h4, h5, h8, h9⟩
    · cases h

theorem strptimePub_empty : strptimePub "" = none := rfl

theorem dateQuad_of_parse {p : String} {dt : PyDateTime}
    (h : strptimePub p = some dt) :
    dateQuad p =
      (Nat.repr dt.year,
       pad4 dt.year ++ "/" ++ pad2 dt.month ++ "/" ++ pad2 dt.day ++ "/",
       pad4 dt.year ++ "/" ++ pad2 dt.month ++ "/01/",
       monthName dt.month ++ " " ++ pad2 dt.day ++ ", " ++ pad4 dt.year) := by
  have hp : p ≠ "" := by
    intro he
    rw [he, strptimePub_empty] at h
    cases h
  unfold dateQuad
  simp [hp, h]

theorem dateQuad_of_fail {p : String} (h : strptimePub p = none) :
    dateQuad p = ("", "", "", "") := by
  unfold dateQuad
  by_cases hp : p = ""
  · simp [hp]
  · simp [hp, h]

/-- The month name is never empty for a validly parsed month. -/
theorem monthName_ne_empty {m : Nat} (h1 : 1 ≤ m) (h2 : m ≤ 12) :
    monthName m ≠ "" := by
  interval_cases m <;> decide

/-!  Inversion of `extract_paper_data`: on success, the date fields come from
`dateQuad` of the published text and the identifier fields from the id-URL
text. -/

theorem extract_fields (e : Entry) (pd : PaperData)
    (h : extract_paper_data e = .ok pd) :
    pd.year = (dateQuad (plainGet e.published)).1 ∧
    pd.submission_date = (dateQuad (plainGet e.published)).2.1 ∧
    pd.ris_date = (dateQuad (plainGet e.published)).2.2.1 ∧
    pd.enw_date_8 = (dateQuad (plainGet e.published)).2.2.2 ∧
    pd.arxiv_id = arxivIdOf (plainGet e.idUrl) ∧
    pd.arxiv_url = "https://arxiv.org/abs/" ++ arxivIdOf (plainGet e.idUrl) := by
  unfold extract_paper_data at h
  rw [safe_get_element_plain "atom:title" (by decide) e.title,
    safe_get_element_plain "atom:id" (by decide) e.idUrl,
    safe_get_element_plain "atom:published" (by decide) e.published,
    safe_get_element_plain "arxiv:doi" (by decide) e.doi] at h
  cases hs : safe_get_element "atom:summary" e.summary with
  | error err => rw [hs] at h; cases h
  | ok summ =>
    rw [hs] at h
    cases ha : getAuthors e.authors with
    | error err => rw [ha] at h; cases h
    | ok auth =>
      rw [ha] at h
      simp only [Except.ok.injEq] at h
      subst h
      exact ⟨rfl, rfl, rfl, rfl, rfl, rfl⟩

/-- Claim C2 (the code evaluated at the failing input): in the summary
branch of `safe_get_element`, an element that exists but carries no text
content makes the lookup raise an uncaught `TypeError` (from
`re.sub(r'[\\{}$]', '', None)`) instead of returning the empty-string
default — so the tolerant lookup is NOT total for the summary field, while
the four other fields' lookups are. -/
theorem C2_summary_lookup_not_total :
    safe_get_element "atom:summary" (some none) = .error .typeError ∧
    (∀ x : Option (Option String),
      safe_get_element "atom:title" x = .ok (plainGet x) ∧
      safe_get_element "atom:id" x = .ok (plainGet x) ∧
      safe_get_element "atom:published" x = .ok (plainGet x) ∧
      safe_get_element "arxiv:doi" x = .ok (plainGet x)) := by
  refine ⟨rfl, fun x => ⟨?_, ?_, ?_, ?_⟩⟩ <;>
    exact safe_get_element_plain _ (by decide) x

/-- Claim C1: for every record produced by extraction, the four
date-derived fields (`year`, `submission_date`, `ris_date`, `enw_date_8`)
are all non-empty when the published timestamp parses in the fixed format
`YYYY-MM-DDTHH:MM:SSZ`, and all empty when it is absent or unparseable —
never partially populated. -/
theorem C1_date_fields_all_or_nothing (e : Entry) (pd : PaperData)
    (h : extract_paper_data e = .ok pd) :
    (∀ dt : PyDateTime, strptimePub (plainGet e.published) = some dt →
      pd.year ≠ "" ∧ pd.submission_date ≠ "" ∧ pd.ris_date ≠ "" ∧ pd.enw_date_8 ≠ "") ∧
    (strptimePub (plainGet e.published) = none →
      pd.year = "" ∧ pd.submission_date = "" ∧ pd.ris_date = "" ∧ pd.enw_date_8 = "") := by
  obtain ⟨hy, hs, hr, hw, -, -⟩ := extract_fields e pd h
  constructor
  · intro dt hdt
    obtain ⟨hb1, hb2, hb3, -, -⟩ := strptimePub_bounds hdt
    rw [hy, hs, hr, hw, dateQuad_of_parse hdt]
    refine ⟨nat_repr_ne_empty dt.year, ?_, ?_, ?_⟩
    · exact append_ne_empty_right _ _ (by decide)
    · exact append_ne_empty_right _ _ (by decide)
    · exact append_ne_empty_left _ _
        (append_ne_empty_left _ _
          (append_ne_empty_left _ _
            (append_ne_empty_left _ _ (monthName_ne_empty hb2 hb3))))
  · intro hdt
    rw [hy, hs, hr, hw, dateQuad_of_fail hdt]
    exact ⟨rfl, rfl, rfl, rfl⟩

theorem C1_witness :
    extract_paper_data sampleEntry = .ok samplePD ∧
    (samplePD.year ≠ "" ∧ samplePD.submission_date ≠ "" ∧
      samplePD.ris_date ≠ "" ∧ samplePD.enw_date_8 ≠ "") := by
  refine ⟨by decide, ?_⟩
  exact (C1_date_fields_all_or_nothing sampleEntry samplePD (by decide)).1
    ⟨2023, 10, 5, 12, 34, 56⟩ (by decide)

/-- Claim C10: for every record whose published timestamp parses, the RIS
date rendering fixes the day component to the literal `01`
(`strftime('%Y/%m/01/')` ignores the timestamp's day), while the slash date
renders the true (zero-padded) day. -/
theorem C10_ris_date_day_fixed (e : Entry) (pd : PaperData) (dt : PyDateTime)
    (h : extract_paper_data e = .ok pd)
    (hdt : strptimePub (plainGet e.published) = some dt) :
    pd.ris_date = pad4 dt.year ++ "/" ++ pad2 dt.month ++ "/01/" ∧
    pd.submission_date =
      pad4 dt.year ++ "/" ++ pad2 dt.month ++ "/" ++ pad2 dt.day ++ "/" := by
  obtain ⟨-, hs, hr, -, -, -⟩ := extract_fields e pd h
  rw [hs, hr, dateQuad_of_parse hdt]
  exact ⟨rfl, rfl⟩

theorem C10_witness :
    samplePD.ris_date = pad4 2023 ++ "/" ++ pad2 10 ++ "/01/" ∧
    samplePD.submission_date =
      pad4 2023 ++ "/" ++ pad2 10 ++ "/" ++ pad2 5 ++ "/" := by
  exact C10_ris_date_day_fixed sampleEntry samplePD ⟨2023, 10, 5, 12, 34, 56⟩
    (by decide) (by decide)

/-!  Claim C9: identifier extraction. -/

theorem matchIdAt_shape : ∀ {l m : List Char}, matchIdAt l = some m → idShape m := by
  intro l m h
  unfold matchIdAt at h
  dsimp only at h
  split at h
  · rename_i h1
    obtain ⟨hlen1, hdig1, -⟩ := h1
    split at h
    · rename_i h2
      obtain ⟨hlen2, hdig2⟩ := h2
      split at h
      · split at h
        · cases h
          exact ⟨l.take 4, (l.drop 4).tail.take 5, [], by simp, hlen1, hlen2,
            fun c hc => List.all_eq_true.mp hdig1 c hc,
            fun c hc => List.all_eq_true.mp hdig2 c hc, Or.inl rfl⟩
        · rename_i hds
          cases h
          exact ⟨l.take 4, (l.drop 4).tail.take 5,
            'v' :: ((l.drop 4).tail.drop 5).tail.takeWhile Char.isDigit, rfl,
            hlen1, hlen2,
            fun c hc => List.all_eq_true.mp hdig1 c hc,
            fun c hc => List.all_eq_true.mp hdig2 c hc,
            Or.inr ⟨((l.drop 4).tail.drop 5).tail.takeWhile Char.isDigit, rfl,
              by simpa [List.isEmpty_iff] using hds,
              fun x hx => List.mem_takeWhile_imp hx⟩⟩
      · cases h
        exact ⟨l.take 4, (l.drop 4).tail.take 5, [], by simp, hlen1, hlen2,
          fun c hc => List.all_eq_true.mp hdig1 c hc,
          fun c hc => List.all_eq_true.mp hdig2 c hc, Or.inl rfl⟩
    · cases h
  · cases h

theorem reSearchId_shape : ∀ {l m : List Char}, reSearchId l = some m → idShape m := by
  intro l
  induction l with
  | nil =>
    intro m h
    cases h
  | cons c t ih =>
    intro m h
    rw [show reSearchId (c :: t) =
      (match matchIdAt (c :: t) with
       | some m => some m
       | none => reSearchId t) from rfl] at h
    cases hm : matchIdAt (c :: t) with
    | some m2 =>
      rw [hm] at h
      cases h
      exact matchIdAt_shape hm
    | none =>
      rw [hm] at h
      exact ih h

/-- Claim C9: identifier extraction applies the pattern
`\d{4}\.\d{5}(v\d+)?` to the id-URL text; the matched text becomes the
paper id (sentinel `"unknown"` when there is no match), and the canonical
URL is `https://arxiv.org/abs/<paperId>`.  In particular, the standard
id-URL containing `2310.12345v2` yields that id and URL. -/
theorem C9_identifier_extraction :
    (∀ u : String, reSearchId u.data = none → arxivIdOf u = "unknown") ∧
    (∀ (u : String) (m : List Char), reSearchId u.data = some m →
      arxivIdOf u = String.mk m ∧ idShape m) ∧
    (∀ u : String, arxivUrlOf u = "https://arxiv.org/abs/" ++ arxivIdOf u) ∧
    (∀ (e : Entry) (pd : PaperData), extract_paper_data e = .ok pd →
      pd.arxiv_id = arxivIdOf (plainGet e.idUrl) ∧
      pd.arxiv_url = "https://arxiv.org/abs/" ++ pd.arxiv_id) ∧
    (arxivIdOf "http://arxiv.org/abs/2310.12345v2" = "2310.12345v2" ∧
     arxivUrlOf "http://arxiv.org/abs/2310.12345v2" =
       "https://arxiv.org/abs/2310.12345v2") := by
  refine ⟨?_, ?_, ?_, ?_, by decide, by decide⟩
  · intro u h
    unfold arxivIdOf
    rw [h]
  · intro u m h
    unfold arxivIdOf
    rw [h]
    exact ⟨rfl, reSearchId_shape h⟩
  · intro u; rfl
  · intro e pd h
    obtain ⟨-, -, -, -, h5, h6⟩ := extract_fields e pd h
    exact ⟨h5, by rw [h6, h5]⟩

theorem C9_witness :
    arxivIdOf "no identifier here" = "unknown" ∧
    arxivIdOf "x12345.12345v7y" = "2345.12345v7" ∧
    samplePD.arxiv_id = arxivIdOf "http://arxiv.org/abs/2310.12345v2" := by
  refine ⟨C9_identifier_extraction.1 "no identifier here" (by decide), ?_, ?_⟩
  · exact (C9_identifier_extraction.2.1 "x12345.12345v7y"
      ['2', '3', '4', '5', '.', '1', '2', '3', '4', '5', 'v', '7'] (by decide)).1.trans
      (by decide)
  · exact ((C9_identifier_extraction.2.2.2.1 sampleEntry samplePD (by decide)).1).trans
      (by decide)

/-!  Claims C4 and C5: simple-mode query building. -/

/-- Claim C4: for every simple-mode URL whose parsed query parameters carry
a non-empty `query` and a `searchtype`, query building returns exactly
`<code>:(<decoded query>)` where `<code>` is the `API_FIELD_MAP` entry for
the searchtype (with default `"all"` for unrecognized names). -/
theorem C4_simple_mode_success (params : QueryParams) (q st : String)
    (qs sts : List String)
    (hq : (lookupP params "query").getD [] = q :: qs)
    (hst : (lookupP params "searchtype").getD [] = st :: sts) :
    parse_simple_search_url params =
      .ok (API_FIELD_MAP st ++ ":(" ++ pyUnquote q ++ ")") := by
  unfold parse_simple_search_url
  rw [hq, hst]

theorem C4_witness :
    parse_simple_search_url [("query", ["cat%20dog"]), ("searchtype", ["title"])] =
      .ok "ti:(cat dog)" := by
  exact (C4_simple_mode_success _ "cat%20dog" "title" [] [] (by decide) (by decide)).trans
    (by decide)

/-- Claim C5: for every simple-mode URL whose `query` or `searchtype`
parameter is absent (or empty — `parse_qs` drops empty-valued parameters,
so they surface as absent keys), query building fails with the
`MalformedQuery` `ValueError`. -/
theorem C5_simple_mode_failure (params : QueryParams)
    (h : (lookupP params "query").getD [] = [] ∨
         (lookupP params "searchtype").getD [] = []) :
    parse_simple_search_url params =
      .error (.valueError "URL 中未找到 \x27query\x27 或 \x27searchtype\x27 参数。") := by
  unfold parse_simple_search_url
  rcases h with h | h
  · rw [h]
  · cases hq : (lookupP params "query").getD [] with
    | nil => rw [h]
    | cons q qs => rw [h]

theorem C5_witness :
    parse_simple_search_url [("searchtype", ["title"])] =
      .error (.valueError "URL 中未找到 \x27query\x27 或 \x27searchtype\x27 参数。") :=
  C5_simple_mode_failure _ (Or.inl (by decide))

/-!  Claim C3: advanced-mode query building matches the specification's
description. -/

theorem joinSp_cons_ne (x : String) {l : List String} (h : l ≠ []) :
    joinSp (x :: l) = x ++ " " ++ joinSp l := by
  cases l with
  | nil => exact absurd rfl h
  | cons y ys => rfl

theorem joinSp_merge : ∀ (xs : List String) (a b : String) (ys : List String),
    joinSp (xs ++ a :: b :: ys) = joinSp (xs ++ (a ++ " " ++ b) :: ys) := by
  intro xs
  induction xs with
  | nil =>
    intro a b ys
    cases ys with
    | nil => simp [joinSp, String.append_assoc]
    | cons y ys2 =>
      simp only [List.nil_append]
      rw [joinSp_cons_ne a (by simp), joinSp_cons_ne b (by simp),
        joinSp_cons_ne (a ++ " " ++ b) (by simp)]
      simp [String.append_assoc]
  | cons x xs ih =>
    intro a b ys
    rw [List.cons_append, List.cons_append, joinSp_cons_ne x (by simp),
      joinSp_cons_ne x (by simp), ih]

theorem advClause_ne_empty (t f : String) : advClause t f ≠ "" := by
  unfold advClause
  exact append_ne_empty_right _ _ (by decide)

theorem advSpecClauses_ne_empty (params : QueryParams) :
    ∀ (fuel i : Nat) (cs : List String), advSpecClauses params fuel i = some cs →
      ∀ c ∈ cs, c ≠ "" := by
  intro fuel
  induction fuel with
  | zero => intro i cs h; cases h
  | succ fuel ih =>
    intro i cs h
    rw [advSpecClauses] at h
    cases hl : lookupP params (termKey i) with
    | none =>
      rw [hl] at h
      cases h
      intro c hc
      cases hc
    | some tl =>
      rw [hl] at h
      cases tl with
      | nil => exact ih (i + 1) cs h
      | cons t ts =>
        cases hf : lookupP params (fieldKey i) with
        | none =>
          rw [hf] at h
          exact ih (i + 1) cs h
        | some fl =>
          rw [hf] at h
          cases fl with
          | nil => exact ih (i + 1) cs h
          | cons f fs =>
            simp only at h
            cases hs : advSpecClauses params fuel (i + 1) with
            | none => rw [hs] at h; cases h
            | some cs2 =>
              rw [hs] at h
              simp only [Option.map_some'] at h
              cases h
              intro c hc
              rcases List.mem_cons.mp hc with hc1 | hc1
              · subst hc1
                cases i with
                | zero => exact advClause_ne_empty t f
                | succ i0 =>
                  cases ho : lookupP params (operKey (i0 + 1)) with
                  | none => simp only [ho]; exact advClause_ne_empty t f
                  | some ol =>
                    cases ol with
                    | nil => simp only [ho]; exact advClause_ne_empty t f
                    | cons op ops =>
                      simp only [ho]
                      exact append_ne_empty_right _ _ (advClause_ne_empty t f)
              · exact ih (i + 1) cs2 hs c hc1

theorem joinSp_ne_empty {cs : List String} (hne : cs ≠ [])
    (h : ∀ c ∈ cs, c ≠ "") : joinSp cs ≠ "" := by
  cases cs with
  | nil => exact absurd rfl hne
  | cons c cs2 =>
    cases cs2 with
    | nil => exact h c (by simp)
    | cons d ds =>
      rw [joinSp_cons_ne c (by simp)]
      exact append_ne_empty_left _ _ (append_ne_empty_right c " " (by decide))

theorem advLoop_spec (params : QueryParams) : ∀ (fuel i : Nat) (parts : List String),
    advLoop params fuel i parts =
      (advSpecClauses params fuel i).map (fun cs => finishAdv (parts ++ cs)) := by
  intro fuel
  induction fuel with
  | zero => intro i parts; rfl
  | succ fuel ih =>
    intro i parts
    rw [advLoop, advSpecClauses]
    cases hl : lookupP params (termKey i) with
    | none => simp
    | some tl =>
      cases tl with
      | nil => simpa using ih (i + 1) parts
      | cons t ts =>
        cases hf : lookupP params (fieldKey i) with
        | none => simpa using ih (i + 1) parts
        | some fl =>
          cases fl with
          | nil => simpa using ih (i + 1) parts
          | cons f fs =>
            simp only
            cases i with
            | zero =>
              rw [ih]
              cases hs : advSpecClauses params fuel (0 + 1) with
              | none => rfl
              | some cs =>
                simp only [Option.map_some']
                congr 1
                rw [List.append_assoc]
                rfl
            | succ i0 =>
              cases ho : lookupP params (operKey (i0 + 1)) with
              | none =>
                simp only [ho]
                rw [ih]
                cases hs : advSpecClauses params fuel (i0 + 1 + 1) with
                | none => rfl
                | some cs =>
                  simp only [Option.map_some']
                  congr 1
                  rw [List.append_assoc]
                  rfl
              | some ol =>
                cases ol with
                | nil =>
                  simp only [ho]
                  rw [ih]
                  cases hs : advSpecClauses params fuel (i0 + 1 + 1) with
                  | none => rfl
                  | some cs =>
                    simp only [Option.map_some']
                    congr 1
                    rw [List.append_assoc]
                    rfl
                | cons op ops =>
                  simp only [ho]
                  rw [ih]
                  cases hs : advSpecClauses params fuel (i0 + 1 + 1) with
                  | none => rfl
                  | some cs =>
                    simp only [Option.map_some']
                    congr 1
                    unfold finishAdv
                    rw [List.append_assoc,
                      show [pyUpper op, advClause t f] ++ cs =
                        pyUpper op :: advClause t f :: cs from rfl,
                      joinSp_merge]

/-- Claim C3: the advanced-mode query builder behaves exactly as the
specification describes it — indices strictly increasing from 0, stop at
the first absent `terms-{i}-term`, skip-by-increment when the field is
missing, clause construction and operator insertion, space-joining in index
order, and `MalformedQuery` when zero valid clauses were produced
(`parse_advanced_spec` transcribes that description; the equality holds for
every fuel bound, in particular whenever the source loop terminates). -/
theorem C3_advanced_mode_matches_spec (params : QueryParams) (fuel : Nat) :
    parse_advanced_search_url params fuel = parse_advanced_spec params fuel := by
  unfold parse_advanced_search_url parse_advanced_spec
  rw [advLoop_spec params fuel 0 []]
  cases hs : advSpecClauses params fuel 0 with
  | none => rfl
  | some cs =>
    cases cs with
    | nil => simp [finishAdv, joinSp]
    | cons c cs2 =>
      simp only [Option.map_some', List.nil_append]
      have hne : joinSp (c :: cs2) ≠ "" :=
        joinSp_ne_empty (by simp) (advSpecClauses_ne_empty params fuel 0 _ hs)
      unfold finishAdv
      simp [hne]

/-!  Claim C7: blank-line separators in the joined document. -/

theorem countNN_cons (c : Char) (l : List Char) :
    countNN (c :: l) = (if c = '\n' ∧ l.head? = some '\n' then 1 else 0) + countNN l := by
  cases l with
  | nil => simp [countNN]
  | cons d rest => simp [countNN]

theorem countNN_append : ∀ (l1 l2 : List Char),
    countNN (l1 ++ l2) = countNN l1 + countNN l2 +
      (if l1.getLast? = some '\n' ∧ l2.head? = some '\n' then 1 else 0) := by
  intro l1
  induction l1 with
  | nil => intro l2; simp [countNN]
  | cons c l1 ih =>
    intro l2
    rw [List.cons_append, countNN_cons, countNN_cons, ih]
    cases l1 with
    | nil =>
      simp only [List.nil_append, List.getLast?_singleton, List.getLast?_nil,
        List.head?_nil, countNN, Option.some.injEq]
      split_ifs <;> simp_all <;> omega
    | cons d l1' =>
      rw [show (c :: d :: l1').getLast? = (d :: l1').getLast? from
        List.getLast?_cons_cons]
      simp only [List.cons_append, List.head?_cons]
      split_ifs <;> simp_all <;> omega

theorem countNN_of_nlFree {l : List Char} (h : ∀ c ∈ l, ¬ c = '\n') :
    countNN l = 0 := by
  induction l with
  | nil => rfl
  | cons c rest ih =>
    rw [countNN_cons]
    have h1 : ¬ c = '\n' := h c (by simp)
    simp only [h1, false_and, if_false]
    simpa using ih (fun x hx => h x (List.mem_cons_of_mem _ hx))

theorem getLast?_append_right {α : Type} (l1 l2 : List α) (h : l2 ≠ []) :
    (l1 ++ l2).getLast? = l2.getLast? := by
  induction l1 with
  | nil => rfl
  | cons a l1 ih =>
    rw [List.cons_append]
    cases hx : l1 ++ l2 with
    | nil => exact absurd (List.append_eq_nil.mp hx).2 h
    | cons b bs =>
      rw [show (a :: b :: bs).getLast? = (b :: bs).getLast? from
        List.getLast?_cons_cons, ← hx, ih]

theorem nlFree_head? {b : String} (h : nlFree b = true) :
    b.data.head? ≠ some '\n' := by
  intro he
  cases hd : b.data with
  | nil => rw [hd] at he; cases he
  | cons c rest =>
    rw [hd] at he
    simp only [List.head?_cons, Option.some.injEq] at he
    have hc := List.all_eq_true.mp h c (by rw [hd]; simp)
    rw [he] at hc
    simp at hc

theorem nlFree_getLast? {b : String} (h : nlFree b = true) :
    b.data.getLast? ≠ some '\n' := by
  intro he
  have hm : '\n' ∈ b.data := List.mem_of_mem_getLast? (show _ ∈ b.data.getLast? from he)
  have := List.all_eq_true.mp h '\n' hm
  simp at this

theorem nlFree_mem {b : String} (h : nlFree b = true) :
    ∀ c ∈ b.data, ¬ c = '\n' := by
  intro c hc he
  have := List.all_eq_true.mp h c hc
  simp [he] at this

/-- A newline-free non-empty string is a good block. -/
theorem blockGood_of_nlFree {b : String} (hne : b ≠ "") (h : nlFree b = true) :
    blockGood b :=
  ⟨hne, nlFree_head? h, nlFree_getLast? h,
    countNN_of_nlFree (nlFree_mem h)⟩

/-- Models `'\n'.join` of non-empty newline-free lines is a good block. -/
theorem joinNL_good : ∀ (ls : List String), ls ≠ [] →
    (∀ x ∈ ls, x ≠ "" ∧ nlFree x = true) → blockGood (joinNL ls) := by
  intro ls
  induction ls with
  | nil => intro h; exact absurd rfl h
  | cons x ls ih =>
    intro _ h
    obtain ⟨hxne, hxnl⟩ := h x (by simp)
    cases ls with
    | nil => exact blockGood_of_nlFree hxne hxnl
    | cons y ls' =>
      obtain ⟨hjne, hjh, hjl, hjc⟩ := ih (by simp) (fun z hz => h z (List.mem_cons_of_mem _ hz))
      show blockGood (x ++ "\n" ++ joinNL (y :: ls'))
      have hdata : (x ++ "\n" ++ joinNL (y :: ls')).data =
          x.data ++ '\n' :: (joinNL (y :: ls')).data := by
        simp [String.data_append]
      have hxd : x.data ≠ [] := fun hx => hxne (String.ext (by simp [hx]))
      have hjd : (joinNL (y :: ls')).data ≠ [] :=
        fun hx => hjne (String.ext (by simp [hx]))
      refine ⟨?_, ?_, ?_, ?_⟩
      · exact append_ne_empty_left _ _ (append_ne_empty_left _ _ hxne)
      · rw [hdata]
        cases hx : x.data with
        | nil => exact absurd hx hxd
        | cons c cs =>
          have : ¬ c = '\n' := nlFree_mem hxnl c (by rw [hx]; simp)
          simp [this]
      · rw [hdata]
        rw [getLast?_append_right _ _ (by simp)]
        rw [show ('\n' :: (joinNL (y :: ls')).data).getLast? =
          (joinNL (y :: ls')).data.getLast? by
            cases hj : (joinNL (y :: ls')).data with
            | nil => exact absurd hj hjd
            | cons b bs => exact List.getLast?_cons_cons]
        exact hjl
      · show countNN (x ++ "\n" ++ joinNL (y :: ls')).data = 0
        rw [hdata, countNN_append, countNN_cons]
        have h1 : countNN x.data = 0 := countNN_of_nlFree (nlFree_mem hxnl)
        have h2 : x.data.getLast? ≠ some '\n' := nlFree_getLast? hxnl
        have hjc2 : countNN (joinNL (y :: ls')).data = 0 := hjc
        rw [h1, hjc2, if_neg (fun hc => hjh hc.2),
          if_neg (fun hc => h2 hc.1)]

/-- Models `'\n\n'.join` of good blocks: non-empty, good ends, and exactly
`N - 1` blank-line separators. -/
theorem joinNN_good : ∀ (blocks : List String), blocks ≠ [] →
    (∀ b ∈ blocks, blockGood b) →
    joinNN blocks ≠ "" ∧ (joinNN blocks).data.head? ≠ some '\n' ∧
    (joinNN blocks).data.getLast? ≠ some '\n' ∧
    countNNs (joinNN blocks) = blocks.length - 1 := by
  intro blocks
  induction blocks with
  | nil => intro h; exact absurd rfl h
  | cons x blocks ih =>
    intro _ h
    obtain ⟨hxne, hxh, hxl, hxc⟩ := h x (by simp)
    cases blocks with
    | nil => exact ⟨hxne, hxh, hxl, hxc⟩
    | cons y bs =>
      obtain ⟨hjne, hjh, hjl, hjc⟩ := ih (by simp) (fun z hz => h z (List.mem_cons_of_mem _ hz))
      show joinNN (x :: y :: bs) ≠ "" ∧ _
      have hdata : (x ++ "\n\n" ++ joinNN (y :: bs)).data =
          x.data ++ '\n' :: '\n' :: (joinNN (y :: bs)).data := by
        simp [String.data_append]
      have hxd : x.data ≠ [] := fun hx => hxne (String.ext (by simp [hx]))
      have hjd : (joinNN (y :: bs)).data ≠ [] :=
        fun hx => hjne (String.ext (by simp [hx]))
      refine ⟨?_, ?_, ?_, ?_⟩
      · exact append_ne_empty_left _ _ (append_ne_empty_left _ _ hxne)
      · show (x ++ "\n\n" ++ joinNN (y :: bs)).data.head? ≠ some '\n'
        rw [hdata]
        cases hx : x.data with
        | nil => exact absurd hx hxd
        | cons c cs =>
          simp only [List.cons_append, List.head?_cons, Option.some.injEq]
          intro he
          apply hxh
          rw [hx, List.head?_cons, he]
      · show (x ++ "\n\n" ++ joinNN (y :: bs)).data.getLast? ≠ some '\n'
        rw [hdata, getLast?_append_right _ _ (by simp)]
        rw [show ('\n' :: '\n' :: (joinNN (y :: bs)).data).getLast? =
          (joinNN (y :: bs)).data.getLast? by
            cases hj : (joinNN (y :: bs)).data with
            | nil => exact absurd hj hjd
            | cons b bs2 =>
              exact (List.getLast?_cons_cons).trans List.getLast?_cons_cons]
        exact hjl
      · show countNN (x ++ "\n\n" ++ joinNN (y :: bs)).data = (x :: y :: bs).length - 1
        rw [hdata, countNN_append, countNN_cons, countNN_cons]
        unfold countNNs at hxc hjc
        rw [hxc, hjc]
        have hb1 : ¬ (x.data.getLast? = some '\n' ∧
            ('\n' :: '\n' :: (joinNN (y :: bs)).data).head? = some '\n') :=
          fun hc => hxl hc.1
        have hb2 : ('\n' : Char) = '\n' ∧
            ('\n' :: (joinNN (y :: bs)).data).head? = some '\n' := ⟨rfl, by simp⟩
        have hb3 : ¬ (('\n' : Char) = '\n' ∧
            (joinNN (y :: bs)).data.head? = some '\n') := fun hc => hjh hc.2
        rw [if_neg hb1, if_pos hb2, if_neg hb3]
        simp only [List.length_cons]
        omega

theorem nlFree_append (a b : String) :
    nlFree (a ++ b) = (nlFree a && nlFree b) := by
  simp [nlFree, String.data_append, List.all_append]

/-- A tagged line `tag ++ field` is non-empty and newline-free. -/
theorem lineGood (tag rest : String) (htag : tag ≠ "") (htnl : nlFree tag = true)
    (hrest : nlFree rest = true) :
    tag ++ rest ≠ "" ∧ nlFree (tag ++ rest) = true := by
  refine ⟨append_ne_empty_left _ _ htag, ?_⟩
  rw [nlFree_append, htnl, hrest]
  rfl

/-- Lines of the form `if cond then [line] else []` are all good when the
line is. -/
theorem forall_mem_ite_singleton {P : String → Prop} {c : Prop} [Decidable c]
    {s : String} (h : P s) : ∀ x ∈ (if c then [s] else []), P x := by
  split_ifs
  · simpa using h
  · simp

theorem ris_lines_good (d : PaperData) (hd : nlFreeData d = true) :
    ∀ x ∈ ris_lines d, x ≠ "" ∧ nlFree x = true := by
  unfold nlFreeData at hd
  simp only [Bool.and_eq_true] at hd
  obtain ⟨⟨⟨⟨⟨⟨⟨⟨⟨⟨h1, h2⟩, h3⟩, h4⟩, h5⟩, h6⟩, h7⟩, h8⟩, h9⟩, h10⟩, h11⟩ := hd
  unfold ris_lines
  simp only [List.forall_mem_append]
  refine ⟨⟨⟨⟨⟨⟨⟨⟨?_, ?_⟩, ?_⟩, ?_⟩, ?_⟩, ?_⟩, ?_⟩, ?_⟩, ?_⟩
  · intro x hx
    rcases List.mem_cons.mp hx with rfl | hx
    · exact ⟨by decide, by decide⟩
    · rcases List.mem_singleton.mp hx with rfl
      exact lineGood _ _ (by decide) (by decide) h1
  · intro x hx
    obtain ⟨a, ha, rfl⟩ := List.mem_map.mp hx
    exact lineGood _ _ (by decide) (by decide) (List.all_eq_true.mp h6 a ha)
  · intro x hx
    rcases List.mem_singleton.mp hx with rfl
    exact lineGood _ _ (by decide) (by decide) h2
  · exact forall_mem_ite_singleton (lineGood _ _ (by decide) (by decide) h7)
  · exact forall_mem_ite_singleton (lineGood _ _ (by decide) (by decide) h8)
  · exact forall_mem_ite_singleton (lineGood _ _ (by decide) (by decide) h3)
  · intro x hx
    rcases List.mem_cons.mp hx with rfl | hx
    · exact lineGood _ _ (by decide) (by decide) h5
    rcases List.mem_cons.mp hx with rfl | hx
    · exact ⟨by decide, by decide⟩
    rcases List.mem_singleton.mp hx with rfl
    exact ⟨by decide, by decide⟩
  · exact forall_mem_ite_singleton (lineGood _ _ (by decide) (by decide) h10)
  · intro x hx
    rcases List.mem_cons.mp hx with rfl | hx
    · exact lineGood _ _ (by decide) (by decide) h4
    rcases List.mem_singleton.mp hx with rfl
    exact ⟨by decide, by decide⟩

theorem enw_lines_good (d : PaperData) (hd : nlFreeData d = true) :
    ∀ x ∈ enw_lines d, x ≠ "" ∧ nlFree x = true := by
  unfold nlFreeData at hd
  simp only [Bool.and_eq_true] at hd
  obtain ⟨⟨⟨⟨⟨⟨⟨⟨⟨⟨h1, h2⟩, h3⟩, h4⟩, h5⟩, h6⟩, h7⟩, h8⟩, h9⟩, h10⟩, h11⟩ := hd
  unfold enw_lines
  simp only [List.forall_mem_append]
  refine ⟨⟨⟨⟨⟨⟨?_, ?_⟩, ?_⟩, ?_⟩, ?_⟩, ?_⟩, ?_⟩
  · intro x hx
    rcases List.mem_cons.mp hx with rfl | hx
    · exact ⟨by decide, by decide⟩
    · rcases List.mem_singleton.mp hx with rfl
      exact lineGood _ _ (by decide) (by decide) h1
  · intro x hx
    obtain ⟨a, ha, rfl⟩ := List.mem_map.mp hx
    exact lineGood _ _ (by decide) (by decide) (List.all_eq_true.mp h6 a ha)
  · exact forall_mem_ite_singleton (lineGood _ _ (by decide) (by decide) h7)
  · exact forall_mem_ite_singleton (lineGood _ _ (by decide) (by decide) h11)
  · intro x hx
    rcases List.mem_cons.mp hx with rfl | hx
    · exact ⟨by decide, by decide⟩
    rcases List.mem_singleton.mp hx with rfl
    exact lineGood _ _ (by decide) (by decide) h10
  · exact forall_mem_ite_singleton (lineGood _ _ (by decide) (by decide) h3)
  · intro x hx
    rcases List.mem_cons.mp hx with rfl | hx
    · exact lineGood _ _ (by decide) (by decide) h4
    rcases List.mem_cons.mp hx with rfl | hx
    · exact lineGood _ _ (by decide) (by decide) h5
    rcases List.mem_singleton.mp hx with rfl
    exact lineGood _ _ (by decide) (by decide) h2

/-- Claim C7 as amended: joining `N ≥ 1` blocks with the fixed two-newline
separator yields exactly `N - 1` blank-line separators when every block is
free of blank lines and of leading/trailing newlines — which the RIS and
ENW renderers guarantee whenever the record's fields are newline-free.
(The BibTeX renderer does not: each of its blocks contains one internal
blank line, see the counterexample.) -/
theorem C7_join_separators :
    (∀ blocks : List String, blocks ≠ [] → (∀ b ∈ blocks, blockGood b) →
      countNNs (joinNN blocks) = blocks.length - 1) ∧
    (∀ d : PaperData, nlFreeData d = true →
      blockGood (format_to_ris d) ∧ blockGood (format_to_enw d)) := by
  constructor
  · intro blocks hne hgood
    exact (joinNN_good blocks hne hgood).2.2.2
  · intro d hd
    constructor
    · exact joinNL_good (ris_lines d) (by simp [ris_lines]) (ris_lines_good d hd)
    · exact joinNL_good (enw_lines d) (by simp [enw_lines]) (enw_lines_good d hd)

set_option maxRecDepth 8192

/-- Claim C7 as stated is false: a single BibTeX block (N = 1) already
contains one blank-line separator (the blank line its body leaves before
the closing brace), not N - 1 = 0. -/
theorem C7_counterexample :
    ¬ (countNNs (joinNN [format_to_bibtex samplePD]) =
        [format_to_bibtex samplePD].length - 1) := by decide

theorem C7_witness :
    countNNs (joinNN [format_to_ris samplePD, format_to_enw samplePD]) = 1 := by
  have h := C7_join_separators.1 [format_to_ris samplePD, format_to_enw samplePD]
    (by decide) (by decide)
  simpa using h

/-!  Claim C8: the upstream-error convention of `parse_arxiv_xml`. -/

theorem renderEntries_eq (f : PaperData → String) :
    ∀ doc : List Entry, renderEntries f doc = (extractAll doc).map (fun rs => rs.map f) := by
  intro doc
  induction doc with
  | nil => rfl
  | cons e rest ih =>
    cases he : extract_paper_data e with
    | error err => simp [renderEntries, extractAll, he, Except.map]
    | ok d =>
      cases hx : extractAll rest with
      | error err => simp [renderEntries, extractAll, he, hx, Except.map, ih]
      | ok rs => simp [renderEntries, extractAll, he, hx, Except.map, ih]

/-- Claim C8 as amended: if the first title element among the document's
entries has text containing `"Error"`, extraction fails with the upstream
error carrying the *stripped* title text (after the fixed message prefix)
and produces no records; if that title element exists with no text content,
extraction fails with a `TypeError`; otherwise extraction proceeds over all
entries in document order. -/
theorem C8_upstream_error :
    (∀ (doc : List Entry) (f : PaperData → String) (t : String),
      firstEntryTitle doc = some (some t) → containsSub "Error" t = true →
      parse_arxiv_xml doc f = .error (.exception ("API 返回错误：" ++ pyStrip t))) ∧
    (∀ (doc : List Entry) (f : PaperData → String),
      firstEntryTitle doc = some none →
      parse_arxiv_xml doc f = .error .typeError) ∧
    (∀ (doc : List Entry) (f : PaperData → String),
      (firstEntryTitle doc = none ∨
        ∃ t, firstEntryTitle doc = some (some t) ∧ containsSub "Error" t = false) →
      parse_arxiv_xml doc f = (extractAll doc).map (fun rs => joinNN (rs.map f))) := by
  have hproceed : ∀ (doc : List Entry) (f : PaperData → String),
      (match renderEntries f doc with
        | .error err => (.error err : Except PyErr String)
        | .ok ls => .ok (joinNN ls)) =
      (extractAll doc).map (fun rs => joinNN (rs.map f)) := by
    intro doc f
    rw [renderEntries_eq f doc]
    cases extractAll doc with
    | error err => rfl
    | ok rs => rfl
  refine ⟨?_, ?_, ?_⟩
  · intro doc f t ht herr
    unfold parse_arxiv_xml
    simp only [ht, herr, if_true]
  · intro doc f ht
    unfold parse_arxiv_xml
    simp only [ht]
  · intro doc f h
    have hp := hproceed doc f
    unfold parse_arxiv_xml
    rcases h with ht | ⟨t, ht, herr⟩
    · simp only [ht]
      exact hp
    · simp only [ht, herr, Bool.false_eq_true, if_false]
      exact hp

/-- Claim C8 as stated is false in its "verbatim" part: the exception
carries the stripped title text `"Error 500"`, not the verbatim title
`"  Error 500  "`. -/
theorem C8_counterexample :
    parse_arxiv_xml [errEntry] format_to_ris =
      .error (.exception ("API 返回错误：Error 500")) ∧
    pyStrip "  Error 500  " ≠ "  Error 500  " := ⟨by decide, by decide⟩

theorem C8_witness :
    parse_arxiv_xml [errEntry] format_to_enw =
      .error (.exception ("API 返回错误：" ++ pyStrip "  Error 500  ")) :=
  C8_upstream_error.1 [errEntry] format_to_enw "  Error 500  " (by decide) (by decide)

end ArxivExport
